import Mathlib

/-
Verification of the memstore.go in-memory key-value store.

The repository holds two textually parallel implementations of the same
store: src/main.go (values of type interface, i.e. untyped) and
src/unnamed/part_000 (a generic variant storage[T]).  Both consist of a
map guarded by a RWMutex, public operations Set/Get/Delete/All/Flush/Close,
a JSON load/flush round trip against a single file, and a background
goroutine flushing every flushPeriod until a stop channel is closed.

Embedding conventions:
- The Go map m of type map[string]V is modelled as an association list with
  at most one entry per key; Go map assignment replaces the entry in place
  or adds a new one, deletion removes the entry, lookup returns (value, ok),
  modelled as Option.
- The RWMutex makes every public operation atomic with respect to the
  shared map, so operations are modelled as pure state transformers.
- The value type interface-brace is opaque to the store; it is a type
  parameter V of the whole development.
- The persistence target is a single file; its content is modelled as
  Option (Map V): none when the file is absent.  The JSON serializer is an
  external collaborator (encoding/json); per the design it round-trips the
  mapping, so encode/decode are modelled as the identity on the mapping.
- os.Create or encoder.Encode failures in Flush are modelled by a boolean
  oracle: when it reports failure, Flush returns the error and the disk is
  left unchanged (the os.Create error branch).
- The background goroutine started by NewStorage, its ticker and the stop
  channel are modelled by a labelled transition relation SchedStep on the
  whole system state; ticks and the observation of the closed stop channel
  are separate labels, and Go select nondeterminism between a pending tick
  and the closed stop channel is reflected by both steps being enabled.
- time.NewTicker rejects a non-positive duration, so when NewStorage spawns
  the goroutine with a negative flushPeriod (the spawn test is != 0), the
  goroutine's very first statement brings the whole process down before the
  select loop is ever live.  This is the crashed scheduler state; like idle
  and stopped it admits no scheduler step, so a running state — the only
  state with tick steps — only ever arises with a positive period, where
  the ticker is valid (see RunningHasValidTicker and its preservation
  theorems).
-/

namespace MemStore

/-- A Go map of type map[string]V: association list, one entry per key. -/
abbrev Map (V : Type) := List (String × V)

/-- Go map read m[k]: the (value, ok) pair, as an Option. -/
def lookup {V : Type} : Map V → String → Option V
  | [], _ => none
  | (k', v) :: rest, k => if k' = k then some v else lookup rest k

/-- Go map assignment m[k] = v: replace the entry for k in place, or add one. -/
def insert {V : Type} : Map V → String → V → Map V
  | [], k, v => [(k, v)]
  | (k', v') :: rest, k, v =>
      if k' = k then (k, v) :: rest else (k', v') :: insert rest k v

/-- Go built-in delete(m, k): remove the entry for k, no-op when absent. -/
def erase {V : Type} : Map V → String → Map V
  | [], _ => []
  | (k', v) :: rest, k => if k' = k then erase rest k else (k', v) :: erase rest k

/-- The copy loop of storage.All (src/main.go lines 68-71):
copy := make(map, len(data)); for k, v := range data, copy[k] = v. -/
def copyLoop {V : Type} (m : Map V) : Map V :=
  m.foldl (fun acc kv => insert acc kv.1 kv.2) []

/-- The struct storage of src/main.go (line 19): the in-memory data map,
the flush path and period, and whether the stop channel has been closed.
The RWMutex has no observable state beyond making operations atomic. -/
structure storage (V : Type) where
  data : Map V
  flushPath : String
  flushPeriod : Int
  stopClosed : Bool
deriving DecidableEq

/-- storage.Set (src/main.go lines 43-47): s.data[key] = value under the lock. -/
def Set {V : Type} (s : storage V) (key : String) (value : V) : storage V :=
  { s with data := insert s.data key value }

/-- storage.Get (src/main.go lines 49-54): val, ok := s.data[key] under the
read lock; some v models (v, true), none models (zero, false). -/
def Get {V : Type} (s : storage V) (key : String) : Option V :=
  lookup s.data key

/-- storage.Delete (src/main.go lines 56-60): delete(s.data, key) under the lock. -/
def Delete {V : Type} (s : storage V) (key : String) : storage V :=
  { s with data := erase s.data key }

/-- storage.All (src/main.go lines 63-73): a shallow copy of s.data built
entry by entry under the read lock. -/
def All {V : Type} (s : storage V) : Map V :=
  copyLoop s.data

/-- The content of the single persistence target (the file at flushPath):
none when the file does not exist, some m when it holds the serialized
mapping m.  The JSON serializer is an external collaborator and round-trips
the mapping, so the stored document is modelled as the mapping itself. -/
abbrev Disk (V : Type) := Option (Map V)

/-- storage.loadFromDisk (src/main.go lines 103-115): os.Open of an absent
file hits the os.IsNotExist branch and returns nil with the data map left
empty; an existing file is decoded into the data map.  The result is the
pair (resulting data map, returned error). -/
def loadFromDisk {V : Type} (d : Disk V) : Map V × Option String :=
  match d with
  | none => ([], none)
  | some m => (m, none)

/-- NewStorage (src/main.go lines 27-41), the storage struct part: the data
map starts empty, loadFromDisk hydrates it (its error is discarded), the
stop channel starts open. -/
def NewStorage {V : Type} (flushPath : String) (flushPeriod : Int) (d : Disk V) :
    storage V :=
  { data := (loadFromDisk d).1
    flushPath := flushPath
    flushPeriod := flushPeriod
    stopClosed := false }

/-- The state of the background flush goroutine: idle when it was never
spawned (flushPeriod = 0 in NewStorage), running while its select loop is
live (the ticker was valid, so the period was positive), stopped once it
has observed the closed stop channel and returned, and crashed when it was
spawned with a negative period and time.NewTicker rejected the
non-positive duration, bringing the process down before the select loop
started. -/
inductive SchedState where
  | idle
  | running
  | stopped
  | crashed
deriving DecidableEq

/-- The whole system: the store, the persistence target content, and the
background goroutine state. -/
structure Sys (V : Type) where
  store : storage V
  disk : Disk V
  sched : SchedState
deriving DecidableEq

/-- The spawn decision of NewStorage (src/main.go line 36): the goroutine
flushPeriodically is spawned iff flushPeriod != 0. -/
def goroutineSpawned (flushPeriod : Int) : Bool :=
  flushPeriod != 0

/-- NewStorage (src/main.go lines 27-41) at system level: loadFromDisk
hydrates the store from the disk, and the goroutine flushPeriodically is
spawned iff flushPeriod != 0 (line 36).  A spawned goroutine immediately
calls time.NewTicker(flushPeriod) (line 76), which rejects a non-positive
duration: with a negative period the goroutine crashes the process before
its select loop is live, so the scheduler only reaches the running state
for a positive period. -/
def newSys {V : Type} (flushPath : String) (flushPeriod : Int) (d : Disk V) :
    Sys V :=
  { store := NewStorage flushPath flushPeriod d
    disk := d
    sched :=
      if goroutineSpawned flushPeriod then
        (if 0 < flushPeriod then SchedState.running else SchedState.crashed)
      else SchedState.idle }

/-- storage.Flush (src/main.go lines 89-101): under the read lock, create
(truncate) the file and encode the data map into it.  fail models os.Create
failing, in which case the error is returned and the disk is unchanged;
otherwise the disk now holds the serialized mapping and nil is returned.
The returned pair is (new system state, Flush's return value). -/
def FlushRun {V : Type} (s : Sys V) (fail : Bool) : Sys V × Option String :=
  if fail then (s, some "flush error")
  else ({ s with disk := some s.store.data }, none)

/-- storage.Close (src/main.go lines 117-120): close(s.stopChan), then
return s.Flush().  Closing the channel makes the stop signal observable;
it does not by itself stop the goroutine. -/
def CloseRun {V : Type} (s : Sys V) (fail : Bool) : Sys V × Option String :=
  FlushRun { s with store := { s.store with stopClosed := true } } fail

/-- One successful tick of flushPeriodically (src/main.go line 82):
s.Flush() writes the current mapping to the disk. -/
def tickFlush {V : Type} (s : Sys V) : Sys V :=
  { s with disk := some s.store.data }

/-- The scheduler loop observing the closed stop channel
(src/main.go lines 83-84) and returning. -/
def observeStop {V : Type} (s : Sys V) : Sys V :=
  { s with sched := SchedState.stopped }

/-- Labels of the background goroutine's steps: a tick-triggered flush
(ok records whether s.Flush() succeeded) or the observation of the closed
stop channel. -/
inductive Label where
  | tick (ok : Bool)
  | stopObserved
deriving DecidableEq

/-- The select loop of flushPeriodically (src/main.go lines 79-86) as a
step relation.  A tick fires only while the goroutine is running; its
Flush error is discarded (line 82), so a failed tick changes nothing.  The
stop case requires the stop channel to be closed and ends the loop.  When
a tick is pending and the stop channel is closed, Go select chooses either
branch: both steps are enabled. -/
inductive SchedStep {V : Type} : Sys V → Label → Sys V → Prop where
  | tickOk (s : Sys V) (h : s.sched = SchedState.running) :
      SchedStep s (Label.tick true) (tickFlush s)
  | tickFail (s : Sys V) (h : s.sched = SchedState.running) :
      SchedStep s (Label.tick false) s
  | stop (s : Sys V) (h : s.sched = SchedState.running)
      (hc : s.store.stopClosed = true) :
      SchedStep s Label.stopObserved (observeStop s)

/-- A caller-issued operation on the store, with the failure oracle for the
file operations of Flush and Close. -/
inductive Act (V : Type) where
  | set (key : String) (value : V)
  | del (key : String)
  | get (key : String)
  | all
  | flush (fail : Bool)
  | close (fail : Bool)
deriving DecidableEq

/-- The value an operation returns to the caller: nothing, a Get result,
an All snapshot, or a Flush/Close error value (none is Go's nil). -/
inductive Out (V : Type) where
  | unit
  | got (r : Option V)
  | dump (m : Map V)
  | res (e : Option String)
deriving DecidableEq

/-- Dispatch of one caller operation against the system state. -/
def applyAct {V : Type} (s : Sys V) : Act V → Sys V × Out V
  | Act.set k v => ({ s with store := Set s.store k v }, Out.unit)
  | Act.del k => ({ s with store := Delete s.store k }, Out.unit)
  | Act.get k => (s, Out.got (Get s.store k))
  | Act.all => (s, Out.dump (All s.store))
  | Act.flush f =>
      let r := FlushRun s f
      (r.1, Out.res r.2)
  | Act.close f =>
      let r := CloseRun s f
      (r.1, Out.res r.2)

/-- Run a sequence of caller operations, collecting the outputs. -/
def runActs {V : Type} (s : Sys V) : List (Act V) → Sys V × List (Out V)
  | [] => (s, [])
  | a :: rest =>
      let r := applyAct s a
      let rr := runActs r.1 rest
      (rr.1, r.2 :: rr.2)

/-- The final state after a sequence of caller operations. -/
def runState {V : Type} (s : Sys V) (acts : List (Act V)) : Sys V :=
  (runActs s acts).1

/-- Whether an operation writes to the mapping at a given key. -/
def writesKey {V : Type} : Act V → String → Bool
  | Act.set k _, key => k == key
  | Act.del k, key => k == key
  | _, _ => false

/-- In a running state the ticker is valid: the select loop is only live
when time.NewTicker accepted the period, i.e. the period is positive.
Construction establishes this and every caller operation and scheduler
step preserves it, so tick steps only ever fire with a valid ticker. -/
def RunningHasValidTicker {V : Type} (s : Sys V) : Prop :=
  s.sched = SchedState.running → 0 < s.store.flushPeriod

/-- A heap of map values: Go maps are reference values, so to state aliasing
properties the maps live at addresses and the store's data field holds an
address.  heapGet reads the map at an address. -/
abbrev Heap (V : Type) := List (Map V)

/-- Read the map stored at address a. -/
def heapGet {V : Type} (h : Heap V) (a : Nat) : Map V :=
  h.getD a []

/-- Overwrite the map stored at address a. -/
def heapWrite {V : Type} (h : Heap V) (a : Nat) (m : Map V) : Heap V :=
  h.set a m

/-- Allocate a fresh map (Go's make) holding m; returns its address. -/
def allocMap {V : Type} (h : Heap V) (m : Map V) : Heap V × Nat :=
  (h ++ [m], h.length)

/-- storage.Set against the heap: mutate the map at the store's address. -/
def SetH {V : Type} (h : Heap V) (a : Nat) (k : String) (v : V) : Heap V :=
  heapWrite h a (insert (heapGet h a) k v)

/-- storage.Delete against the heap: mutate the map at the store's address. -/
def DeleteH {V : Type} (h : Heap V) (a : Nat) (k : String) : Heap V :=
  heapWrite h a (erase (heapGet h a) k)

/-- storage.All against the heap (src/main.go lines 63-73): make allocates
a fresh map, the loop copies every entry into it, and its address is what
the caller receives. -/
def AllH {V : Type} (h : Heap V) (a : Nat) : Heap V × Nat :=
  allocMap h (copyLoop (heapGet h a))

/-- The keys of a map are pairwise distinct: the invariant every Go map
satisfies, and which insert/erase from the empty map preserve. -/
abbrev KeysNodup {V : Type} (m : Map V) : Prop :=
  m.Pairwise (fun p q => p.1 ≠ q.1)

end MemStore

namespace GStore

/-
Embedding of src/unnamed/part_000: the generic variant storage[T].  The
file is line-for-line parallel to src/main.go with the value type a type
parameter T instead of interface-brace.  It is embedded independently so
that the equivalence of the two variants is a theorem, not an assumption.
-/

/-- A Go map of type map[string]T for the generic variant. -/
abbrev Map (T : Type) := List (String × T)

/-- Go map read m[k] for the generic variant. -/
def lookup {T : Type} : Map T → String → Option T
  | [], _ => none
  | (k', v) :: rest, k => if k' = k then some v else lookup rest k

/-- Go map assignment m[k] = v for the generic variant. -/
def insert {T : Type} : Map T → String → T → Map T
  | [], k, v => [(k, v)]
  | (k', v') :: rest, k, v =>
      if k' = k then (k, v) :: rest else (k', v') :: insert rest k v

/-- Go delete(m, k) for the generic variant. -/
def erase {T : Type} : Map T → String → Map T
  | [], _ => []
  | (k', v) :: rest, k => if k' = k then erase rest k else (k', v) :: erase rest k

/-- The copy loop of storage[T].All (src/unnamed/part_000 lines 68-71). -/
def copyLoop {T : Type} (m : Map T) : Map T :=
  m.foldl (fun acc kv => insert acc kv.1 kv.2) []

/-- The struct storage[T] of src/unnamed/part_000 (line 19). -/
structure storage (T : Type) where
  data : Map T
  flushPath : String
  flushPeriod : Int
  stopClosed : Bool
deriving DecidableEq

/-- storage[T].Set (src/unnamed/part_000 lines 43-47). -/
def Set {T : Type} (s : storage T) (key : String) (value : T) : storage T :=
  { s with data := insert s.data key value }

/-- storage[T].Get (src/unnamed/part_000 lines 49-54). -/
def Get {T : Type} (s : storage T) (key : String) : Option T :=
  lookup s.data key

/-- storage[T].Delete (src/unnamed/part_000 lines 56-60). -/
def Delete {T : Type} (s : storage T) (key : String) : storage T :=
  { s with data := erase s.data key }

/-- storage[T].All (src/unnamed/part_000 lines 63-73). -/
def All {T : Type} (s : storage T) : Map T :=
  copyLoop s.data

/-- Persistence target content for the generic variant. -/
abbrev Disk (T : Type) := Option (Map T)

/-- storage[T].loadFromDisk (src/unnamed/part_000 lines 103-115). -/
def loadFromDisk {T : Type} (d : Disk T) : Map T × Option String :=
  match d with
  | none => ([], none)
  | some m => (m, none)

/-- NewStorage[T] (src/unnamed/part_000 lines 27-41), the struct part. -/
def NewStorage {T : Type} (flushPath : String) (flushPeriod : Int) (d : Disk T) :
    storage T :=
  { data := (loadFromDisk d).1
    flushPath := flushPath
    flushPeriod := flushPeriod
    stopClosed := false }

/-- System state for the generic variant. -/
structure Sys (T : Type) where
  store : storage T
  disk : Disk T
  sched : MemStore.SchedState
deriving DecidableEq

/-- The spawn decision of NewStorage[T] (src/unnamed/part_000 line 36). -/
def goroutineSpawned (flushPeriod : Int) : Bool :=
  flushPeriod != 0

/-- NewStorage[T] at system level (src/unnamed/part_000 lines 27-41):
the goroutine is spawned iff flushPeriod != 0 (line 36); a spawned
goroutine reaches a live select loop only for a positive period, since
time.NewTicker (line 76) rejects a non-positive duration and crashes the
process. -/
def newSys {T : Type} (flushPath : String) (flushPeriod : Int) (d : Disk T) :
    Sys T :=
  { store := NewStorage flushPath flushPeriod d
    disk := d
    sched :=
      if goroutineSpawned flushPeriod then
        (if 0 < flushPeriod then MemStore.SchedState.running
         else MemStore.SchedState.crashed)
      else MemStore.SchedState.idle }

/-- storage[T].Flush (src/unnamed/part_000 lines 89-101). -/
def FlushRun {T : Type} (s : Sys T) (fail : Bool) : Sys T × Option String :=
  if fail then (s, some "flush error")
  else ({ s with disk := some s.store.data }, none)

/-- storage[T].Close (src/unnamed/part_000 lines 117-120). -/
def CloseRun {T : Type} (s : Sys T) (fail : Bool) : Sys T × Option String :=
  FlushRun { s with store := { s.store with stopClosed := true } } fail

/-- Caller operations for the generic variant. -/
inductive Act (T : Type) where
  | set (key : String) (value : T)
  | del (key : String)
  | get (key : String)
  | all
  | flush (fail : Bool)
  | close (fail : Bool)
deriving DecidableEq

/-- Operation results for the generic variant. -/
inductive Out (T : Type) where
  | unit
  | got (r : Option T)
  | dump (m : Map T)
  | res (e : Option String)
deriving DecidableEq

/-- Dispatch of one caller operation for the generic variant. -/
def applyAct {T : Type} (s : Sys T) : Act T → Sys T × Out T
  | Act.set k v => ({ s with store := Set s.store k v }, Out.unit)
  | Act.del k => ({ s with store := Delete s.store k }, Out.unit)
  | Act.get k => (s, Out.got (Get s.store k))
  | Act.all => (s, Out.dump (All s.store))
  | Act.flush f =>
      let r := FlushRun s f
      (r.1, Out.res r.2)
  | Act.close f =>
      let r := CloseRun s f
      (r.1, Out.res r.2)

/-- Run a sequence of caller operations for the generic variant. -/
def runActs {T : Type} (s : Sys T) : List (Act T) → Sys T × List (Out T)
  | [] => (s, [])
  | a :: rest =>
      let r := applyAct s a
      let rr := runActs r.1 rest
      (rr.1, r.2 :: rr.2)

end GStore

namespace Equiv

/-
Conversions between the generic variant instantiated at a value type T and
the untyped variant storing values of that same type: the Go instantiation
storage[T] with T = interface-brace is the untyped storage.  The
conversions are field-for-field; the equivalence theorem states that they
commute with every operation.
-/

/-- The generic store state viewed as an untyped store state. -/
def storeToMem {T : Type} (s : GStore.storage T) : MemStore.storage T :=
  { data := s.data
    flushPath := s.flushPath
    flushPeriod := s.flushPeriod
    stopClosed := s.stopClosed }

/-- The generic system state viewed as an untyped system state. -/
def sysToMem {T : Type} (s : GStore.Sys T) : MemStore.Sys T :=
  { store := storeToMem s.store
    disk := s.disk
    sched := s.sched }

/-- A generic-variant operation viewed as an untyped-variant operation. -/
def actToMem {T : Type} : GStore.Act T → MemStore.Act T
  | GStore.Act.set k v => MemStore.Act.set k v
  | GStore.Act.del k => MemStore.Act.del k
  | GStore.Act.get k => MemStore.Act.get k
  | GStore.Act.all => MemStore.Act.all
  | GStore.Act.flush f => MemStore.Act.flush f
  | GStore.Act.close f => MemStore.Act.close f

/-- A generic-variant result viewed as an untyped-variant result. -/
def outToMem {T : Type} : GStore.Out T → MemStore.Out T
  | GStore.Out.unit => MemStore.Out.unit
  | GStore.Out.got r => MemStore.Out.got r
  | GStore.Out.dump m => MemStore.Out.dump m
  | GStore.Out.res e => MemStore.Out.res e

end Equiv

namespace MemStore

section MapLemmas

variable {V : Type}

theorem lookup_insert_self (m : Map V) (k : String) (v : V) :
    lookup (insert m k v) k = some v := by
  induction m with
  | nil => simp [insert, lookup]
  | cons p rest ih =>
      cases p with
      | mk k' v' =>
        by_cases h : k' = k
        · simp [insert, lookup, h]
        · simp [insert, lookup, h, ih]

theorem lookup_insert_ne (m : Map V) (k k' : String) (v : V) (h : k ≠ k') :
    lookup (insert m k v) k' = lookup m k' := by
  induction m with
  | nil => simp [insert, lookup, h]
  | cons p rest ih =>
      cases p with
      | mk k0 v0 =>
        by_cases h0 : k0 = k
        · subst h0
          simp [insert, lookup, h]
        · simp [insert, lookup, h0, ih]

theorem lookup_erase_self (m : Map V) (k : String) :
    lookup (erase m k) k = none := by
  induction m with
  | nil => simp [erase, lookup]
  | cons p rest ih =>
      cases p with
      | mk k0 v0 =>
        by_cases h0 : k0 = k
        · simp [erase, h0, ih]
        · simp [erase, lookup, h0, ih]

theorem lookup_erase_ne (m : Map V) (k k' : String) (h : k ≠ k') :
    lookup (erase m k) k' = lookup m k' := by
  induction m with
  | nil => simp [erase, lookup]
  | cons p rest ih =>
      cases p with
      | mk k0 v0 =>
        by_cases h0 : k0 = k
        · subst h0
          simp [erase, lookup, h, ih]
        · simp [erase, lookup, h0, ih]

theorem lookup_eq_none_of_key_not_mem (m : Map V) (k : String)
    (h : ∀ p ∈ m, p.1 ≠ k) : lookup m k = none := by
  induction m with
  | nil => rfl
  | cons p rest ih =>
      cases p with
      | mk k0 v0 =>
        have hk0 : k0 ≠ k := h (k0, v0) (List.mem_cons_self _ _)
        simp only [lookup, if_neg hk0]
        exact ih (fun q hq => h q (List.mem_cons_of_mem _ hq))

theorem erase_of_lookup_none (m : Map V) (k : String)
    (h : lookup m k = none) : erase m k = m := by
  induction m with
  | nil => rfl
  | cons p rest ih =>
      cases p with
      | mk k0 v0 =>
        by_cases h0 : k0 = k
        · subst h0
          simp [lookup] at h
        · simp only [lookup, if_neg h0] at h
          simp [erase, h0, ih h]

theorem insert_eq_append_of_key_not_mem (m : Map V) (k : String) (v : V)
    (h : ∀ p ∈ m, p.1 ≠ k) : insert m k v = m ++ [(k, v)] := by
  induction m with
  | nil => rfl
  | cons p rest ih =>
      cases p with
      | mk k0 v0 =>
        have hk0 : k0 ≠ k := h (k0, v0) (List.mem_cons_self _ _)
        simp only [insert, if_neg hk0, List.cons_append, List.cons.injEq,
          true_and]
        exact ih (fun q hq => h q (List.mem_cons_of_mem _ hq))

theorem copyLoop_go (m acc : Map V)
    (hd : ∀ p ∈ m, ∀ q ∈ acc, q.1 ≠ p.1) (hnd : KeysNodup m) :
    List.foldl (fun a kv => insert a kv.1 kv.2) acc m = acc ++ m := by
  induction m generalizing acc with
  | nil => simp
  | cons p rest ih =>
      cases p with
      | mk k0 v0 =>
        have hins : insert acc k0 v0 = acc ++ [(k0, v0)] :=
          insert_eq_append_of_key_not_mem acc k0 v0
            (fun q hq => hd (k0, v0) (List.mem_cons_self _ _) q hq)
        have hnd' : KeysNodup rest := (List.pairwise_cons.mp hnd).2
        have hhead : ∀ q ∈ rest, (k0, v0).1 ≠ q.1 :=
          fun q hq => (List.pairwise_cons.mp hnd).1 q hq
        simp only [List.foldl_cons, hins]
        rw [ih (acc ++ [(k0, v0)]) ?_ hnd']
        · simp
        · intro p hp q hq
          rcases List.mem_append.mp hq with hq1 | hq2
          · exact hd p (List.mem_cons_of_mem _ hp) q hq1
          · rcases List.mem_singleton.mp hq2 with rfl
            exact hhead p hp

theorem copyLoop_eq_self (m : Map V) (hnd : KeysNodup m) : copyLoop m = m := by
  simpa [copyLoop] using
    copyLoop_go m [] (fun p _ q hq => absurd hq (List.not_mem_nil q)) hnd

end MapLemmas

section HeapLemmas

variable {V : Type}

theorem heapGet_heapWrite_self (h : Heap V) (a : Nat) (m : Map V)
    (ha : a < h.length) : heapGet (heapWrite h a m) a = m := by
  simp [heapGet, heapWrite, List.getD_eq_getElem?_getD, List.getElem?_set_self,
    ha]

theorem heapGet_heapWrite_ne (h : Heap V) (a b : Nat) (m : Map V)
    (hab : a ≠ b) : heapGet (heapWrite h a m) b = heapGet h b := by
  simp [heapGet, heapWrite, List.getD_eq_getElem?_getD, List.getElem?_set_ne,
    hab]

theorem heapGet_append_last (h : Heap V) (m : Map V) :
    heapGet (h ++ [m]) h.length = m := by
  simp [heapGet, List.getD_eq_getElem?_getD, List.getElem?_append_right]

theorem heapGet_append_lt (h : Heap V) (m : Map V) (b : Nat)
    (hb : b < h.length) : heapGet (h ++ [m]) b = heapGet h b := by
  simp [heapGet, List.getD_eq_getElem?_getD, List.getElem?_append_left hb]

end HeapLemmas

section RunLemmas

variable {V : Type}

theorem runState_nil (s : Sys V) : runState s [] = s := rfl

theorem runState_cons (s : Sys V) (a : Act V) (acts : List (Act V)) :
    runState s (a :: acts) = runState (applyAct s a).1 acts := rfl

theorem lookup_applyAct_of_not_writesKey (s : Sys V) (a : Act V) (k : String)
    (h : writesKey a k = false) :
    lookup ((applyAct s a).1).store.data k = lookup s.store.data k := by
  cases a with
  | set k' v =>
      have hne : k' ≠ k := by
        simpa [writesKey] using h
      simp [applyAct, Set, lookup_insert_ne _ _ _ _ hne]
  | del k' =>
      have hne : k' ≠ k := by
        simpa [writesKey] using h
      simp [applyAct, Delete, lookup_erase_ne _ _ _ hne]
  | get k' => rfl
  | all => rfl
  | flush f =>
      by_cases hf : f = true <;> simp [applyAct, FlushRun, hf]
  | close f =>
      by_cases hf : f = true <;> simp [applyAct, CloseRun, FlushRun, hf]

theorem lookup_runState_of_not_writesKey (acts : List (Act V)) (s : Sys V)
    (k : String) (h : ∀ a ∈ acts, writesKey a k = false) :
    lookup (runState s acts).store.data k = lookup s.store.data k := by
  induction acts generalizing s with
  | nil => rfl
  | cons a rest ih =>
      rw [runState_cons]
      rw [ih (applyAct s a).1 (fun b hb => h b (List.mem_cons_of_mem _ hb))]
      exact lookup_applyAct_of_not_writesKey s a k
        (h a (List.mem_cons_self _ _))

theorem schedStep_requires_running (t : Sys V) (l : Label) (t' : Sys V)
    (hstep : SchedStep t l t') : t.sched = SchedState.running := by
  cases hstep with
  | tickOk h => exact h
  | tickFail h => exact h
  | stop h _ => exact h

theorem runningInv_newSys (flushPath : String) (flushPeriod : Int)
    (d : Disk V) : RunningHasValidTicker (newSys flushPath flushPeriod d) := by
  intro hrun
  by_cases hp : flushPeriod = 0
  · simp [newSys, goroutineSpawned, hp] at hrun
  · by_cases hpos : 0 < flushPeriod
    · exact hpos
    · simp [newSys, goroutineSpawned, hp, hpos] at hrun

theorem runningInv_applyAct (s : Sys V) (a : Act V)
    (hinv : RunningHasValidTicker s) :
    RunningHasValidTicker (applyAct s a).1 := by
  cases a with
  | set k v => exact hinv
  | del k => exact hinv
  | get k => exact hinv
  | all => exact hinv
  | flush f => cases f <;> exact hinv
  | close f => cases f <;> exact hinv

theorem runningInv_schedStep (s : Sys V) (l : Label) (s' : Sys V)
    (hstep : SchedStep s l s') (hinv : RunningHasValidTicker s) :
    RunningHasValidTicker s' := by
  cases hstep with
  | tickOk h => exact hinv
  | tickFail h => exact hinv
  | stop h hc =>
      intro hrun
      exact absurd hrun (by simp [observeStop])

end RunLemmas

end MemStore

namespace Equiv

variable {T : Type}

theorem lookup_eq (m : GStore.Map T) (k : String) :
    GStore.lookup m k = MemStore.lookup m k := by
  induction m with
  | nil => rfl
  | cons p rest ih =>
      cases p with
      | mk k0 v0 => simp [GStore.lookup, MemStore.lookup, ih]

theorem insert_eq (m : GStore.Map T) (k : String) (v : T) :
    GStore.insert m k v = MemStore.insert m k v := by
  induction m with
  | nil => rfl
  | cons p rest ih =>
      cases p with
      | mk k0 v0 => simp [GStore.insert, MemStore.insert, ih]

theorem erase_eq (m : GStore.Map T) (k : String) :
    GStore.erase m k = MemStore.erase m k := by
  induction m with
  | nil => rfl
  | cons p rest ih =>
      cases p with
      | mk k0 v0 => simp [GStore.erase, MemStore.erase, ih]

theorem copyLoop_eq (m : GStore.Map T) :
    GStore.copyLoop m = MemStore.copyLoop m := by
  have hfun : (fun (a : GStore.Map T) (kv : String × T) =>
      GStore.insert a kv.1 kv.2)
      = fun (a : MemStore.Map T) (kv : String × T) =>
        MemStore.insert a kv.1 kv.2 := by
    funext a kv
    exact insert_eq a kv.1 kv.2
  simp [GStore.copyLoop, MemStore.copyLoop, hfun]

theorem applyAct_state_eq (s : GStore.Sys T) (a : GStore.Act T) :
    sysToMem (GStore.applyAct s a).1
      = (MemStore.applyAct (sysToMem s) (actToMem a)).1 := by
  cases a with
  | set k v =>
      simp [GStore.applyAct, MemStore.applyAct, actToMem, sysToMem,
        storeToMem, GStore.Set, MemStore.Set, insert_eq]
  | del k =>
      simp [GStore.applyAct, MemStore.applyAct, actToMem, sysToMem,
        storeToMem, GStore.Delete, MemStore.Delete, erase_eq]
  | get k => rfl
  | all => rfl
  | flush f =>
      cases f <;>
        simp [GStore.applyAct, MemStore.applyAct, actToMem, sysToMem,
          storeToMem, GStore.FlushRun, MemStore.FlushRun]
  | close f =>
      cases f <;>
        simp [GStore.applyAct, MemStore.applyAct, actToMem, sysToMem,
          storeToMem, GStore.CloseRun, MemStore.CloseRun, GStore.FlushRun,
          MemStore.FlushRun]

theorem applyAct_out_eq (s : GStore.Sys T) (a : GStore.Act T) :
    outToMem (GStore.applyAct s a).2
      = (MemStore.applyAct (sysToMem s) (actToMem a)).2 := by
  cases a with
  | set k v => rfl
  | del k => rfl
  | get k =>
      simp [GStore.applyAct, MemStore.applyAct, actToMem, outToMem,
        sysToMem, storeToMem, GStore.Get, MemStore.Get, lookup_eq]
  | all =>
      simp [GStore.applyAct, MemStore.applyAct, actToMem, outToMem,
        sysToMem, storeToMem, GStore.All, MemStore.All, copyLoop_eq]
  | flush f =>
      cases f <;>
        simp [GStore.applyAct, MemStore.applyAct, actToMem, outToMem,
          GStore.FlushRun, MemStore.FlushRun]
  | close f =>
      cases f <;>
        simp [GStore.applyAct, MemStore.applyAct, actToMem, outToMem,
          GStore.CloseRun, MemStore.CloseRun, GStore.FlushRun,
          MemStore.FlushRun]

theorem runActs_eq (acts : List (GStore.Act T)) (s : GStore.Sys T) :
    sysToMem (GStore.runActs s acts).1
        = (MemStore.runActs (sysToMem s) (acts.map actToMem)).1
    ∧ (GStore.runActs s acts).2.map outToMem
        = (MemStore.runActs (sysToMem s) (acts.map actToMem)).2 := by
  induction acts generalizing s with
  | nil => exact ⟨rfl, rfl⟩
  | cons a rest ih =>
      have hs := applyAct_state_eq s a
      have ho := applyAct_out_eq s a
      have ihr := ih (GStore.applyAct s a).1
      constructor
      · simp only [GStore.runActs, MemStore.runActs, List.map_cons]
        rw [ihr.1, hs]
      · simp only [GStore.runActs, MemStore.runActs, List.map_cons,
          List.map]
        rw [ihr.2, hs, ho]

theorem newSys_eq (flushPath : String) (flushPeriod : Int) (d : GStore.Disk T) :
    sysToMem (GStore.newSys flushPath flushPeriod d)
      = MemStore.newSys flushPath flushPeriod d := by
  by_cases hp : flushPeriod = 0 <;> by_cases hpos : 0 < flushPeriod <;>
    simp [GStore.newSys, MemStore.newSys, sysToMem, storeToMem,
      GStore.NewStorage, MemStore.NewStorage, GStore.loadFromDisk,
      MemStore.loadFromDisk, GStore.goroutineSpawned,
      MemStore.goroutineSpawned, hp, hpos] <;>
    cases d <;> rfl

end Equiv

/-- C1: for every key k and value v, immediately after Set(k, v) completes,
Get(k) returns (v, true), and it continues to return (v, true) across any
further operations until a subsequent Set(k, _) or Delete(k) on the same
store.  The operations after the Set are an arbitrary sequence none of
which writes key k. -/
theorem C1_set_then_get_until_overwrite {V : Type} (s : MemStore.Sys V)
    (k : String) (v : V) (acts : List (MemStore.Act V))
    (h : ∀ a ∈ acts, MemStore.writesKey a k = false) :
    MemStore.Get (MemStore.runState
        (MemStore.applyAct s (MemStore.Act.set k v)).1 acts).store k
      = some v := by
  show MemStore.lookup (MemStore.runState
      (MemStore.applyAct s (MemStore.Act.set k v)).1 acts).store.data k
    = some v
  rw [MemStore.lookup_runState_of_not_writesKey acts _ k h]
  show MemStore.lookup (MemStore.insert s.store.data k v) k = some v
  exact MemStore.lookup_insert_self s.store.data k v

/-- Witness for C1 at a concrete run: Set("a", 7) followed by a Delete of
another key, a Get and a Flush still leaves Get("a") = (7, true). -/
theorem C1_witness :
    MemStore.Get (MemStore.runState
        (MemStore.applyAct (MemStore.newSys "db.json" 0 none)
          (MemStore.Act.set "a" 7)).1
        [MemStore.Act.del "b", MemStore.Act.get "a",
          MemStore.Act.flush false]).store "a" = some 7 :=
  C1_set_then_get_until_overwrite (MemStore.newSys "db.json" 0 none)
    "a" 7 _ (by decide)

/-- C2: for every store state reached by any finite sequence of operations,
a successful Flush followed by constructing a fresh store against the same
persistence target reproduces the same mapping, and the Flush reports no
error: load(flush(state)) = state. -/
theorem C2_flush_load_round_trip {V : Type} (path : String)
    (period period' : Int) (d : MemStore.Disk V)
    (acts : List (MemStore.Act V)) :
    (MemStore.FlushRun (MemStore.runState (MemStore.newSys path period d)
        acts) false).2 = none
    ∧ (MemStore.NewStorage path period'
        (MemStore.FlushRun (MemStore.runState (MemStore.newSys path period d)
          acts) false).1.disk).data
      = (MemStore.runState (MemStore.newSys path period d) acts).store.data :=
  ⟨rfl, rfl⟩

/-- C3: All() returns an independent copy of every current entry.  With the
store's map living at heap address a, the address returned by All is fresh,
its content equals the store's map entry for entry, mutating the returned
map (insert or delete) leaves the store's map untouched, and mutating the
store afterwards leaves the returned map untouched. -/
theorem C3_all_returns_independent_copy {V : Type} (h : MemStore.Heap V)
    (a : Nat) (ha : a < h.length)
    (hnd : MemStore.KeysNodup (MemStore.heapGet h a)) :
    (MemStore.AllH h a).2 ≠ a
    ∧ MemStore.heapGet (MemStore.AllH h a).1 (MemStore.AllH h a).2
        = MemStore.heapGet h a
    ∧ (∀ k v, MemStore.heapGet
        (MemStore.SetH (MemStore.AllH h a).1 (MemStore.AllH h a).2 k v) a
        = MemStore.heapGet h a)
    ∧ (∀ k, MemStore.heapGet
        (MemStore.DeleteH (MemStore.AllH h a).1 (MemStore.AllH h a).2 k) a
        = MemStore.heapGet h a)
    ∧ (∀ k v, MemStore.heapGet
        (MemStore.SetH (MemStore.AllH h a).1 a k v) (MemStore.AllH h a).2
        = MemStore.heapGet h a)
    ∧ (∀ k, MemStore.heapGet
        (MemStore.DeleteH (MemStore.AllH h a).1 a k) (MemStore.AllH h a).2
        = MemStore.heapGet h a) := by
  have hfresh : (MemStore.AllH h a).2 = h.length := rfl
  have hane : h.length ≠ a := Nat.ne_of_gt ha
  have hheap : (MemStore.AllH h a).1
      = h ++ [MemStore.copyLoop (MemStore.heapGet h a)] := rfl
  have hcontent : MemStore.heapGet (MemStore.AllH h a).1 (MemStore.AllH h a).2
      = MemStore.heapGet h a := by
    rw [hheap, hfresh, MemStore.heapGet_append_last,
      MemStore.copyLoop_eq_self _ hnd]
  have hkeep : MemStore.heapGet (MemStore.AllH h a).1 a
      = MemStore.heapGet h a := by
    rw [hheap, MemStore.heapGet_append_lt _ _ _ ha]
  refine ⟨hfresh ▸ hane, hcontent, ?_, ?_, ?_, ?_⟩
  · intro k v
    rw [MemStore.SetH, MemStore.heapGet_heapWrite_ne _ _ _ _ (hfresh ▸ hane),
      hkeep]
  · intro k
    rw [MemStore.DeleteH, MemStore.heapGet_heapWrite_ne _ _ _ _ (hfresh ▸ hane),
      hkeep]
  · intro k v
    rw [MemStore.SetH, MemStore.heapGet_heapWrite_ne _ _ _ _
      (fun he => hane (hfresh ▸ he.symm)), hcontent]
  · intro k
    rw [MemStore.DeleteH, MemStore.heapGet_heapWrite_ne _ _ _ _
      (fun he => hane (hfresh ▸ he.symm)), hcontent]

/-- Witness for C3 on a two-cell heap whose store map holds two entries:
the snapshot returned by All holds exactly the store's entries. -/
theorem C3_witness :
    MemStore.heapGet
        (MemStore.AllH ([[("x", (1 : Nat)), ("y", 2)], [("z", 3)]] :
          MemStore.Heap Nat) 0).1
        (MemStore.AllH ([[("x", (1 : Nat)), ("y", 2)], [("z", 3)]] :
          MemStore.Heap Nat) 0).2
      = MemStore.heapGet
          ([[("x", (1 : Nat)), ("y", 2)], [("z", 3)]] : MemStore.Heap Nat) 0 :=
  (C3_all_returns_independent_copy
    ([[("x", (1 : Nat)), ("y", 2)], [("z", 3)]] : MemStore.Heap Nat) 0
    (by decide) (by decide)).2.1

/-- C4: after Delete(k) completes, Get(k) returns (_, false); and Delete(k)
on an absent key is a no-op producing no error: the store is left exactly
as it was. -/
theorem C4_delete_get_none_and_absent_noop {V : Type}
    (s : MemStore.storage V) (k : String) :
    MemStore.Get (MemStore.Delete s k) k = none
    ∧ (MemStore.Get s k = none → MemStore.Delete s k = s) := by
  constructor
  · exact MemStore.lookup_erase_self s.data k
  · intro habs
    show { s with data := MemStore.erase s.data k } = s
    rw [MemStore.erase_of_lookup_none s.data k habs]

/-- Witness for C4: deleting the absent key "b" from a concrete one-entry
store removes nothing and changes nothing. -/
theorem C4_witness :
    MemStore.Get (MemStore.storage.mk [("a", (1 : Nat))] "db.json" 0 false)
        "b" = none
    ∧ MemStore.Get (MemStore.Delete
        (MemStore.storage.mk [("a", (1 : Nat))] "db.json" 0 false) "b") "b"
        = none
    ∧ MemStore.Delete
        (MemStore.storage.mk [("a", (1 : Nat))] "db.json" 0 false) "b"
      = MemStore.storage.mk [("a", (1 : Nat))] "db.json" 0 false :=
  ⟨by decide,
    (C4_delete_get_none_and_absent_noop
      (MemStore.storage.mk [("a", (1 : Nat))] "db.json" 0 false) "b").1,
    (C4_delete_get_none_and_absent_noop
      (MemStore.storage.mk [("a", (1 : Nat))] "db.json" 0 false) "b").2
      (by decide)⟩

/-- C5: constructing a store against a nonexistent persistence target
succeeds with an empty store: loadFromDisk returns no error and leaves the
data map empty, and the constructed store's mapping is empty. -/
theorem C5_missing_target_starts_empty {V : Type} (path : String)
    (period : Int) :
    MemStore.loadFromDisk (none : MemStore.Disk V) = ([], none)
    ∧ (MemStore.newSys path period (none : MemStore.Disk V)).store.data
        = [] :=
  ⟨rfl, rfl⟩

/-- Counterexample for C6: the code spawns the background goroutine when
flushPeriod != 0 (src/main.go line 36), not when it is greater than zero.
With the negative period -1 the goroutine is spawned although -1 is not
greater than zero, refuting "started if and only if the flush period is
greater than zero"; and background activity does occur at that period: the
spawned goroutine's time.NewTicker call rejects the non-positive duration
and crashes the process (the crashed state, not idle), refuting "for any
period not greater than zero no background activity occurs". -/
theorem C6_counterexample_negative_period :
    MemStore.goroutineSpawned (-1) = true
    ∧ ((-1 : Int) < 0)
    ∧ (MemStore.newSys "db.json" (-1) (none : MemStore.Disk Nat)).sched
        = MemStore.SchedState.crashed :=
  ⟨by decide, by decide, by decide⟩

/-- C6 amended: at construction the flush goroutine is spawned if and only
if the flush period is nonzero (the code tests != 0, not > 0), and the
scheduler loop becomes live if and only if the period is positive.  With
period zero no background activity occurs: the scheduler is idle, no
scheduler step exists, and a Set followed by no explicit Flush or Close
leaves the persistence target exactly as it was.  With a negative period
the goroutine is spawned but time.NewTicker rejects the non-positive
duration and crashes the process before the select loop is live: the
scheduler is crashed and no scheduler step — in particular no background
flush — ever occurs there. -/
theorem C6_amended_spawn_iff_nonzero {V : Type} (path : String)
    (period : Int) (d : MemStore.Disk V) (k : String) (v : V) :
    (MemStore.goroutineSpawned period = true ↔ period ≠ 0)
    ∧ ((MemStore.newSys path period d).sched = MemStore.SchedState.running
        ↔ 0 < period)
    ∧ (period = 0 →
        (MemStore.newSys path period d).sched = MemStore.SchedState.idle
        ∧ (∀ l s', ¬ MemStore.SchedStep
            (MemStore.runState (MemStore.newSys path period d)
              [MemStore.Act.set k v]) l s')
        ∧ (MemStore.runState (MemStore.newSys path period d)
            [MemStore.Act.set k v]).disk = d)
    ∧ (period < 0 →
        (MemStore.newSys path period d).sched = MemStore.SchedState.crashed
        ∧ (∀ l s', ¬ MemStore.SchedStep (MemStore.newSys path period d)
            l s')) := by
  refine ⟨?_, ?_, ?_, ?_⟩
  · simp [MemStore.goroutineSpawned]
  · by_cases hp : period = 0
    · simp [MemStore.newSys, MemStore.goroutineSpawned, hp]
    · by_cases hpos : 0 < period <;>
        simp [MemStore.newSys, MemStore.goroutineSpawned, hp, hpos]
  · intro hz
    subst hz
    refine ⟨by simp [MemStore.newSys, MemStore.goroutineSpawned], ?_, rfl⟩
    intro l s' hstep
    have hrun := MemStore.schedStep_requires_running _ _ _ hstep
    have hidle : (MemStore.runState (MemStore.newSys path 0 d)
        [MemStore.Act.set k v]).sched = MemStore.SchedState.idle := by
      simp [MemStore.runState, MemStore.runActs, MemStore.applyAct,
        MemStore.newSys, MemStore.goroutineSpawned]
    rw [hidle] at hrun
    exact MemStore.SchedState.noConfusion hrun
  · intro hneg
    have hcrashed : (MemStore.newSys path period d).sched
        = MemStore.SchedState.crashed := by
      have hp : period ≠ 0 := Int.ne_of_lt hneg
      have hpos : ¬ 0 < period := by omega
      simp [MemStore.newSys, MemStore.goroutineSpawned, hp, hpos]
    refine ⟨hcrashed, ?_⟩
    intro l s' hstep
    have hrun := MemStore.schedStep_requires_running _ _ _ hstep
    rw [hcrashed] at hrun
    exact MemStore.SchedState.noConfusion hrun

/-- Witness for C6 amended, at period 0 (the scheduler is idle and a Set
with no explicit Flush or Close leaves the absent persistence target
absent) and at period -2 (the spawned goroutine crashed in
time.NewTicker). -/
theorem C6_amended_witness :
    (MemStore.newSys "db.json" 0 (none : MemStore.Disk Nat)).sched
        = MemStore.SchedState.idle
    ∧ (MemStore.runState (MemStore.newSys "db.json" 0
        (none : MemStore.Disk Nat)) [MemStore.Act.set "x" 1]).disk = none
    ∧ (MemStore.newSys "db.json" (-2) (none : MemStore.Disk Nat)).sched
        = MemStore.SchedState.crashed :=
  ⟨((C6_amended_spawn_iff_nonzero "db.json" 0 none "x" 1).2.2.1 rfl).1,
    ((C6_amended_spawn_iff_nonzero "db.json" 0 none "x" 1).2.2.1 rfl).2.2,
    ((C6_amended_spawn_iff_nonzero "db.json" (-2) none "x" 1).2.2.2
      (by decide)).1⟩

/-- Counterexample for C7: after Close returns, a further background flush
can still occur.  Close closes the stop channel and flushes, but the
goroutine's select between an already-pending tick and the closed stop
channel may choose the tick (src/main.go lines 79-86), so from the
post-Close state a tick-flush step is still enabled: Close has returned
(with nil error) and the scheduler has not yet observed the stop signal. -/
theorem C7_counterexample_tick_after_close :
    (MemStore.CloseRun (MemStore.runState
        (MemStore.newSys "db.json" 5 (none : MemStore.Disk Nat))
        [MemStore.Act.set "k" 1]) false).2 = none
    ∧ MemStore.SchedStep
        (MemStore.CloseRun (MemStore.runState
          (MemStore.newSys "db.json" 5 (none : MemStore.Disk Nat))
          [MemStore.Act.set "k" 1]) false).1
        (MemStore.Label.tick true)
        (MemStore.tickFlush (MemStore.CloseRun (MemStore.runState
          (MemStore.newSys "db.json" 5 (none : MemStore.Disk Nat))
          [MemStore.Act.set "k" 1]) false).1) :=
  ⟨by decide, MemStore.SchedStep.tickOk _ (by decide)⟩

/-- C7 amended: Close triggers the stop signal and performs one final
Flush, returning that Flush's error; on success the persistence target
holds the mapping as of the last completed mutation before Close.  Once
the scheduler has observed the stop signal its loop has terminated and no
further scheduler step — in particular no background flush — occurs; a
tick already pending when the stop channel is closed may however still
flush once after Close returns. -/
theorem C7_amended_close_behavior {V : Type} (s : MemStore.Sys V)
    (fail : Bool) :
    (MemStore.CloseRun s fail).1.store.stopClosed = true
    ∧ (fail = true → (MemStore.CloseRun s fail).2 = some "flush error"
        ∧ (MemStore.CloseRun s fail).1.disk = s.disk)
    ∧ (fail = false → (MemStore.CloseRun s fail).2 = none
        ∧ (MemStore.CloseRun s fail).1.disk = some s.store.data)
    ∧ (s.sched = MemStore.SchedState.running →
        MemStore.SchedStep (MemStore.CloseRun s fail).1
          MemStore.Label.stopObserved
          (MemStore.observeStop (MemStore.CloseRun s fail).1))
    ∧ (∀ (t : MemStore.Sys V) (l : MemStore.Label) (t' : MemStore.Sys V),
        t.sched = MemStore.SchedState.stopped
        → ¬ MemStore.SchedStep t l t') := by
  refine ⟨?_, ?_, ?_, ?_, ?_⟩
  · cases fail <;> rfl
  · intro hf
    subst hf
    exact ⟨rfl, rfl⟩
  · intro hf
    subst hf
    exact ⟨rfl, rfl⟩
  · intro hrun
    refine MemStore.SchedStep.stop _ ?_ ?_
    · cases fail <;> simpa [MemStore.CloseRun, MemStore.FlushRun] using hrun
    · cases fail <;> rfl
  · intro t l t' hstopped hstep
    have hrun := MemStore.schedStep_requires_running _ _ _ hstep
    rw [hstopped] at hrun
    exact MemStore.SchedState.noConfusion hrun

/-- Witness for C7 amended: a concrete successful Close on a running
system stops, flushes the mapping, and leaves the stop step enabled. -/
theorem C7_amended_witness :
    (MemStore.CloseRun (MemStore.newSys "db.json" 5
        (none : MemStore.Disk Nat)) false).1.store.stopClosed = true
    ∧ ((MemStore.CloseRun (MemStore.newSys "db.json" 5
          (none : MemStore.Disk Nat)) false).2 = none
        ∧ (MemStore.CloseRun (MemStore.newSys "db.json" 5
          (none : MemStore.Disk Nat)) false).1.disk
          = some (MemStore.newSys "db.json" 5
            (none : MemStore.Disk Nat)).store.data)
    ∧ MemStore.SchedStep (MemStore.CloseRun (MemStore.newSys "db.json" 5
        (none : MemStore.Disk Nat)) false).1 MemStore.Label.stopObserved
        (MemStore.observeStop (MemStore.CloseRun (MemStore.newSys "db.json" 5
          (none : MemStore.Disk Nat)) false).1) :=
  ⟨(C7_amended_close_behavior (MemStore.newSys "db.json" 5 none) false).1,
    (C7_amended_close_behavior (MemStore.newSys "db.json" 5 none)
      false).2.2.1 rfl,
    (C7_amended_close_behavior (MemStore.newSys "db.json" 5 none)
      false).2.2.2.1 (by decide)⟩

/-- C8: while the scheduler is running, a tick invokes Flush and discards
its error: a successful tick writes the mapping to disk and leaves the
loop running with the store untouched, and a failed tick leaves the entire
system exactly as it was — the loop keeps running and nothing is
propagated.  Only a caller-invoked Flush, or Close, returns the error. -/
theorem C8_tick_discards_error_loop_continues {V : Type} (s : MemStore.Sys V)
    (h : s.sched = MemStore.SchedState.running) :
    MemStore.SchedStep s (MemStore.Label.tick true) (MemStore.tickFlush s)
    ∧ (MemStore.tickFlush s).sched = MemStore.SchedState.running
    ∧ (MemStore.tickFlush s).store = s.store
    ∧ MemStore.SchedStep s (MemStore.Label.tick false) s
    ∧ (MemStore.FlushRun s true).2 = some "flush error"
    ∧ (MemStore.CloseRun s true).2 = some "flush error" := by
  exact ⟨MemStore.SchedStep.tickOk s h, by simpa [MemStore.tickFlush] using h,
    rfl, MemStore.SchedStep.tickFail s h, rfl, rfl⟩

/-- Witness for C8 on a concrete running system. -/
theorem C8_witness :
    (MemStore.newSys "db.json" 5 (none : MemStore.Disk Nat)).sched
      = MemStore.SchedState.running
    ∧ MemStore.SchedStep (MemStore.newSys "db.json" 5
        (none : MemStore.Disk Nat)) (MemStore.Label.tick false)
        (MemStore.newSys "db.json" 5 (none : MemStore.Disk Nat)) :=
  ⟨by decide,
    (C8_tick_discards_error_loop_continues
      (MemStore.newSys "db.json" 5 none) (by decide)).2.2.2.1⟩

/-- C9: the generic variant storage[T] of src/unnamed/part_000 is
behaviorally equivalent to the untyped variant of src/main.go: under the
field-for-field correspondence, construction agrees, and every sequence of
Set/Get/Delete/All/Flush/Close operations yields the same final system
state and the same outputs. -/
theorem C9_generic_equals_untyped {T : Type} (path : String) (period : Int)
    (d : GStore.Disk T) (acts : List (GStore.Act T)) :
    Equiv.sysToMem (GStore.newSys path period d)
        = MemStore.newSys path period d
    ∧ Equiv.sysToMem (GStore.runActs (GStore.newSys path period d) acts).1
        = (MemStore.runActs (MemStore.newSys path period d)
            (acts.map Equiv.actToMem)).1
    ∧ (GStore.runActs (GStore.newSys path period d) acts).2.map Equiv.outToMem
        = (MemStore.runActs (MemStore.newSys path period d)
            (acts.map Equiv.actToMem)).2 := by
  have hn := Equiv.newSys_eq path period d
  have hr := Equiv.runActs_eq acts (GStore.newSys path period d)
  exact ⟨hn, by rw [← hn]; exact hr.1, by rw [← hn]; exact hr.2⟩

/-- C10: the store imposes no constraint on keys: for the empty-string key,
Set stores the entry (Get then returns it as found), and Delete removes
it.  The empty key is handled exactly like any other key. -/
theorem C10_empty_key_unconstrained {V : Type} (s : MemStore.storage V)
    (v : V) :
    MemStore.Get (MemStore.Set s "" v) "" = some v
    ∧ (MemStore.Set s "" v).data = MemStore.insert s.data "" v
    ∧ MemStore.Get (MemStore.Delete (MemStore.Set s "" v) "") "" = none :=
  ⟨MemStore.lookup_insert_self s.data "" v, rfl,
    MemStore.lookup_erase_self (MemStore.insert s.data "" v) ""⟩
